import Mathlib

/-!
Verification of the mibig module / gene-function record engine.

The Python sources under `mibig/converters/shared/mibig/biosynthesis/modules/base.py`,
`mibig/converters/shared/mibig/gene/function.py` and `mibig/utils_modules.py` are
shallowly embedded below.  JSON-like trees are modelled by the inductive `Json`;
Python dicts become insertion-ordered association lists (Python dict equality is
key-based, but all raw trees handled below either come from deterministic
serializers or are compared key-by-key, so list-level reasoning is faithful).
Fallible construction (`from_json`, `__init__` raising `ValidationError`) is
modelled with `Except`.  Types that the given sources only import
(`Citation`, `Evidence`, `GeneId`, `QualityLevel`, `Monomer`, the variant
payload classes) are modelled from the spec; each such definition carries a
doc comment starting `Modelled from the spec:`.
-/

namespace Mibig

/-- JSON-like trees: the untyped raw representation.  Objects are modelled as
insertion-ordered association lists, mirroring Python dict construction order. -/
inductive Json where
  | null
  | bool (b : Bool)
  | num (n : Int)
  | str (s : String)
  | arr (items : List Json)
  | obj (fields : List (String × Json))

/-- First binding for a key in an association list, mirroring Python dict lookup
(raw input objects carry unique keys). -/
def lookupField : List (String × Json) → String → Option Json
  | [], _ => none
  | (k', v) :: rest, k => if k' = k then some v else lookupField rest k

/-- Embedding of `raw.get(key)` / `raw[key]` on an object; `none` for non-objects or missing keys. -/
def Json.lookup : Json → String → Option Json
  | .obj fields, k => lookupField fields k
  | _, _ => none

/-- Python dict assignment `d[k] = v`: update in place if the key exists,
append otherwise. -/
def insertField : List (String × Json) → String → Json → List (String × Json)
  | [], k, v => [(k, v)]
  | (k', v') :: rest, k, v =>
    if k' = k then (k, v) :: rest else (k', v') :: insertField rest k v

/-- Python `{**base, **extra}`: fold dict assignment over the extra fields. -/
def mergeFields (base extra : List (String × Json)) : List (String × Json) :=
  extra.foldl (fun acc kv => insertField acc kv.1 kv.2) base

/-- Python truthiness of a JSON-like value. -/
def Json.truthy : Json → Bool
  | .null => false
  | .bool b => b
  | .num n => n != 0
  | .str s => decide (s ≠ "")
  | .arr items => !items.isEmpty
  | .obj fields => !fields.isEmpty

/-- Embedding of `ValidationErrorInfo(field, message)` from `mibig/errors.py`: a single
structured validation issue. -/
structure ValidationErrorInfo where
  field : String
  message : String
deriving DecidableEq, Repr

/-- Modelled from the spec: the quality level of the enclosing record; the spec
names the levels `FULL` and `QUESTIONABLE` (the source enum is not under the
given sources). -/
inductive QualityLevel where
  | questionable
  | full
deriving DecidableEq, Repr

/-- Modelled from the spec: the external genome-record lookup capability, which
`must support hasIdentifier(name) -> bool` for gene-identifier cross-checks. -/
structure Record where
  identifiers : List String
deriving DecidableEq, Repr

def Record.hasIdentifier (r : Record) (name : String) : Bool :=
  r.identifiers.contains name

/-- The validation context threaded through every `validate` call as `**kwargs`
in the source: `kwargs.get("quality")` and `kwargs.get("record")`. -/
structure Context where
  quality : Option QualityLevel
  record : Option Record
deriving DecidableEq, Repr

/-- Modelled from the spec: a Citation is "identifier string + source-type tag";
its raw shape is not under the given sources and is modelled as an object with
the two fields. -/
structure Citation where
  database : String
  value : String
deriving DecidableEq, Repr

/-- Modelled from the spec: citations are "validated for well-formed identifier
syntax"; modelled as requiring a non-empty identifier. -/
def Citation.validate (c : Citation) : List ValidationErrorInfo :=
  if c.value = "" then [⟨"Citation", "Invalid citation: missing identifier"⟩] else []

def Citation.from_json (raw : Json) : Except String Citation :=
  match raw.lookup "database", raw.lookup "value" with
  | some (.str d), some (.str v) => .ok ⟨d, v⟩
  | _, _ => .error "citation"

def Citation.to_json (c : Citation) : Json :=
  .obj [("database", .str c.database), ("value", .str c.value)]

/-- Modelled from the spec: the citation-list validator "checks each citation
independently and does not require the list non-empty". -/
def validate_citation_list (refs : List Citation) : List ValidationErrorInfo :=
  refs.flatMap Citation.validate

/-- The ways raw-input construction can fail, per the spec's error taxonomy:
`schemaError` for missing/mis-shaped required keys (Python `KeyError`/`TypeError`),
`unknownVariant` for a type tag outside the dispatch table (Python
`ValueError` from the `ModuleType` enum constructor, naming the tag), and
`validationError` carrying the aggregated issue list (Python `ValidationError`). -/
inductive ConstructError where
  | schemaError (path : String)
  | unknownVariant (tag : String)
  | validationError (errors : List ValidationErrorInfo)
deriving DecidableEq, Repr

/-- Embedding of `NcaEvidence` from `modules/base.py`: an `Evidence` subclass fixing
`VALID_METHODS`.  The base `Evidence` class is not under the given sources;
its shape and validation rule ("method must be in a variant-specific closed
set; every citation in the list independently validates") are modelled from
the spec. -/
structure NcaEvidence where
  method : String
  references : List Citation
deriving DecidableEq, Repr

/-- Embedding of `NcaEvidence.VALID_METHODS` from `modules/base.py` lines 29-33. -/
def NcaEvidence.VALID_METHODS : List String :=
  ["Sequence-based prediction", "Structure-based inference", "Activity assay"]

/-- Modelled from the spec: `Evidence.validate` checks the method against the
closed vocabulary and delegates to the citation-list validator; it does not
depend on the quality level. -/
def NcaEvidence.validate (e : NcaEvidence) : List ValidationErrorInfo :=
  (if e.method ∈ NcaEvidence.VALID_METHODS then []
   else [⟨"Evidence.method", "Invalid method: " ++ e.method⟩])
  ++ validate_citation_list e.references

/-- Modelled from the spec: `Evidence.from_json` reads the method and the
citation list; when constructed with validation (the `validate` kwarg), a
non-empty issue list raises `ValidationError`. -/
def NcaEvidence.from_json (raw : Json) (validateFlag : Bool) :
    Except ConstructError NcaEvidence := do
  let method ← match raw.lookup "method" with
    | some (.str s) => Except.ok s
    | _ => Except.error (.schemaError "method")
  let references ← match raw.lookup "references" with
    | some (.arr rs) =>
        rs.mapM (fun r => (Citation.from_json r).mapError ConstructError.schemaError)
    | _ => Except.error (.schemaError "references")
  let e : NcaEvidence := ⟨method, references⟩
  if validateFlag then
    if e.validate = [] then pure e else Except.error (.validationError e.validate)
  else
    pure e

def NcaEvidence.to_json (e : NcaEvidence) : Json :=
  .obj [("method", .str e.method), ("references", .arr (e.references.map Citation.to_json))]

/-- Embedding of `NonCanonicalActivity` from `modules/base.py` lines 36-101. -/
structure NonCanonicalActivity where
  evidence : List NcaEvidence
  iterations : Option Int
  non_elongating : Option Bool
  skipped : Option Bool
deriving DecidableEq, Repr

/-- Embedding of `NonCanonicalActivity.validate` (`modules/base.py` lines 63-79): require at
least one evidence unless the context quality is QUESTIONABLE, then validate
every evidence entry. -/
def NonCanonicalActivity.validate (nca : NonCanonicalActivity) (ctx : Context) :
    List ValidationErrorInfo :=
  (if ctx.quality ≠ some QualityLevel.questionable then
    (if nca.evidence.isEmpty then
      [⟨"NonCanonicalActivity.evidence", "At least one evidence must be provided"⟩]
     else [])
   else [])
  ++ nca.evidence.flatMap NcaEvidence.validate

/-- Embedding of `NonCanonicalActivity.from_json` (`modules/base.py` lines 81-89); the
`validate` kwarg is forwarded to each `NcaEvidence.from_json` and to the
constructor, which validates unless told not to. -/
def NonCanonicalActivity.from_json (raw : Json) (validateFlag : Bool) (ctx : Context) :
    Except ConstructError NonCanonicalActivity := do
  let evidence ← match raw.lookup "evidence" with
    | some (.arr es) => es.mapM (fun e => NcaEvidence.from_json e validateFlag)
    | _ => Except.error (.schemaError "evidence")
  let iterations ← match raw.lookup "iterations" with
    | none => Except.ok none
    | some .null => Except.ok none
    | some (.num n) => Except.ok (some n)
    | some _ => Except.error (.schemaError "iterations")
  let non_elongating ← match raw.lookup "nonElongating" with
    | none => Except.ok none
    | some .null => Except.ok none
    | some (.bool b) => Except.ok (some b)
    | some _ => Except.error (.schemaError "nonElongating")
  let skipped ← match raw.lookup "skipped" with
    | none => Except.ok none
    | some .null => Except.ok none
    | some (.bool b) => Except.ok (some b)
    | some _ => Except.error (.schemaError "skipped")
  let nca : NonCanonicalActivity := ⟨evidence, iterations, non_elongating, skipped⟩
  if validateFlag then
    if nca.validate ctx = [] then pure nca
    else Except.error (.validationError (nca.validate ctx))
  else
    pure nca

/-- Embedding of `NonCanonicalActivity.to_json` (`modules/base.py` lines 91-101): optional
fields are emitted only when not `None`. -/
def NonCanonicalActivity.to_json (nca : NonCanonicalActivity) : Json :=
  .obj ([("evidence", .arr (nca.evidence.map NcaEvidence.to_json))]
    ++ (match nca.iterations with
        | some i => [("iterations", Json.num i)]
        | none => [])
    ++ (match nca.non_elongating with
        | some b => [("nonElongating", Json.bool b)]
        | none => [])
    ++ (match nca.skipped with
        | some b => [("skipped", Json.bool b)]
        | none => []))

/-- Embedding of `ModuleType` from `modules/base.py` lines 104-113: the closed set of 9
module type tags. -/
inductive ModuleType where
  | cal
  | nrps_type1
  | nrps_type6
  | other
  | pks_iterative
  | pks_modular
  | pks_trans_at
  | pks_modular_starter
  | pks_trans_at_starter
deriving DecidableEq, Repr

/-- The `StrEnum` string value of each tag. -/
def ModuleType.value : ModuleType → String
  | .cal => "cal"
  | .nrps_type1 => "nrps-type1"
  | .nrps_type6 => "nrps-type6"
  | .other => "other"
  | .pks_iterative => "pks-iterative"
  | .pks_modular => "pks-modular"
  | .pks_trans_at => "pks-trans-at"
  | .pks_modular_starter => "pks-modular-starter"
  | .pks_trans_at_starter => "pks-trans-at-starter"

/-- Embedding of `ModuleType(tag)`: resolve a raw string to a tag; `none` models the
`ValueError` the enum constructor raises for an unknown tag. -/
def ModuleType.fromString? (s : String) : Option ModuleType :=
  if s = "cal" then some .cal
  else if s = "nrps-type1" then some .nrps_type1
  else if s = "nrps-type6" then some .nrps_type6
  else if s = "other" then some .other
  else if s = "pks-iterative" then some .pks_iterative
  else if s = "pks-modular" then some .pks_modular
  else if s = "pks-trans-at" then some .pks_trans_at
  else if s = "pks-modular-starter" then some .pks_modular_starter
  else if s = "pks-trans-at-starter" then some .pks_trans_at_starter
  else none

/-- Modelled from the spec: a domain-like payload sub-object carrying
citations, as returned by `collectDomains`/`get_domains` "used only for
citation collection". -/
structure Domain where
  name : String
  references : List Citation
deriving DecidableEq, Repr

/-- The envelope's own keys in `Module.to_json`; under the flattening contract
the payload contributes the remaining keys at the same level. -/
def envelopeKeys : List String :=
  ["type", "name", "genes", "active", "integrated_monomers",
   "non_canonical_activity", "comment"]

/-- Modelled from the spec: the variant payload (`ExtraInfo` = `ModuleInfo`).
The concrete payload classes (`cal.py`, `nrps.py`, `pks.py`, `other.py`) are
not under the given sources.  Per the spec each payload uniformly exposes
construct-from-raw (reading its variant-specific fields from the flattened
envelope tree), `validate(context)`, `serialize` (contributing its fields
directly into the envelope's output tree) and `collectDomains`.  The payload is
therefore modelled as its flattened raw fields plus an opaque domain list and
an opaque list of the issues its `validate` returns. -/
structure ModuleInfo where
  fields : List (String × Json)
  domains : List Domain
  issues : List ValidationErrorInfo

/-- Modelled from the spec: `payload.validate(context) -> list[ValidationIssue]`;
the variant-specific rules are opaque here, so the issues are carried as data. -/
def ModuleInfo.validate (info : ModuleInfo) (_ctx : Context) : List ValidationErrorInfo :=
  info.issues

/-- Embedding of `extra_info.get_domains()` as used by `Module.references`. -/
def ModuleInfo.get_domains (info : ModuleInfo) : List Domain :=
  info.domains

/-- Modelled from the spec: payload serialization contributes the payload's
fields "directly into the envelope's output tree, not nested under a sub-key". -/
def ModuleInfo.to_json (info : ModuleInfo) : List (String × Json) :=
  info.fields

/-- Modelled from the spec: payload construction reads the variant-specific
fields from the flattened envelope tree, i.e. the non-envelope keys. -/
def ModuleInfo.from_json (raw : Json) : Except ConstructError ModuleInfo :=
  match raw with
  | .obj fields => .ok ⟨fields.filter (fun kv => decide (kv.1 ∉ envelopeKeys)), [], []⟩
  | _ => .error (.schemaError "extra_info")

/-- Modelled from the spec: a Monomer-reference is a small struct with local
validation rules and a citation list exposed as `references`; its raw shape is
modelled as an object with a name and the citation list. -/
structure Monomer where
  name : String
  references : List Citation
deriving DecidableEq, Repr

/-- Modelled from the spec: monomer validation checks its own non-emptiness
rule and delegates to the citation-list validator; `Module.validate` calls it
without any context. -/
def Monomer.validate (m : Monomer) : List ValidationErrorInfo :=
  (if m.name = "" then [⟨"Monomer.name", "Monomer name must be provided"⟩] else [])
  ++ validate_citation_list m.references

/-- Modelled from the spec: monomer construction from raw; with validation on,
a non-empty issue list aborts with `ValidationError`. -/
def Monomer.from_json (raw : Json) (validateFlag : Bool) : Except ConstructError Monomer := do
  let name ← match raw.lookup "name" with
    | some (.str s) => Except.ok s
    | _ => Except.error (.schemaError "name")
  let references ← match raw.lookup "references" with
    | some (.arr rs) =>
        rs.mapM (fun r => (Citation.from_json r).mapError ConstructError.schemaError)
    | _ => Except.error (.schemaError "references")
  let m : Monomer := ⟨name, references⟩
  if validateFlag then
    if m.validate = [] then pure m else Except.error (.validationError m.validate)
  else
    pure m

def Monomer.to_json (m : Monomer) : Json :=
  .obj [("name", .str m.name), ("references", .arr (m.references.map Citation.to_json))]

/-- Modelled from the spec: a gene identifier that "must resolve against the
enclosing genome record, if one is supplied in context". -/
structure GeneId where
  gene_id : String
deriving DecidableEq, Repr

/-- Modelled from the spec: the genome record's "absence means gene-identifier
validation is skipped, not failed". -/
def GeneId.validate (g : GeneId) (record : Option Record) : List ValidationErrorInfo :=
  match record with
  | none => []
  | some r =>
    if r.hasIdentifier g.gene_id then []
    else [⟨"GeneId", "Unknown gene id: " ++ g.gene_id⟩]

/-- Modelled from the spec: gene identifiers are serialized as plain strings;
the `validate` kwarg is forwarded to `GeneId.from_json` by `Module.from_json`. -/
def GeneId.from_json (raw : Json) (validateFlag : Bool) (ctx : Context) :
    Except ConstructError GeneId := do
  let g ← match raw with
    | .str s => Except.ok (GeneId.mk s)
    | _ => Except.error (.schemaError "gene")
  if validateFlag then
    if g.validate ctx.record = [] then pure g
    else Except.error (.validationError (g.validate ctx.record))
  else
    pure g

def GeneId.to_json (g : GeneId) : Json :=
  .str g.gene_id

/-- Modelled from the spec: "citations are totally ordered (for deterministic
dedup/sort) by (source-type, identifier)". -/
def Citation.le (a b : Citation) : Prop :=
  a.database < b.database ∨ (a.database = b.database ∧ a.value ≤ b.value)

instance : DecidableRel Citation.le := fun a b => by
  unfold Citation.le; infer_instance

instance : IsTrans Citation Citation.le where
  trans a b c hab hbc := by
    rcases hab with h1 | ⟨h1, h1'⟩ <;> rcases hbc with h2 | ⟨h2, h2'⟩
    · exact Or.inl (lt_trans h1 h2)
    · exact Or.inl (h2 ▸ h1)
    · exact Or.inl (h1 ▸ h2)
    · exact Or.inr ⟨h1.trans h2, le_trans h1' h2'⟩

instance : IsTotal Citation Citation.le where
  total a b := by
    rcases lt_trichotomy a.database b.database with h | h | h
    · exact Or.inl (Or.inl h)
    · rcases le_total a.value b.value with h' | h'
      · exact Or.inl (Or.inr ⟨h, h'⟩)
      · exact Or.inr (Or.inr ⟨h.symm, h'⟩)
    · exact Or.inr (Or.inl h)

instance : IsAntisymm Citation Citation.le where
  antisymm a b hab hba := by
    rcases hab with h1 | ⟨h1, h1'⟩ <;> rcases hba with h2 | ⟨h2, h2'⟩
    · exact absurd (lt_trans h1 h2) (lt_irrefl _)
    · exact absurd h1 (h2 ▸ lt_irrefl _)
    · exact absurd h2 (h1 ▸ lt_irrefl _)
    · cases a; cases b
      simp only [Citation.mk.injEq]
      exact ⟨h1, le_antisymm h1' h2'⟩

/-- Embedding of `Module` from `modules/base.py` lines 129-235. -/
structure Module where
  module_type : ModuleType
  name : String
  genes : List GeneId
  active : Bool
  extra_info : ModuleInfo
  integrated_monomers : List Monomer
  non_canonical_activity : Option NonCanonicalActivity
  comment : Option String

/-- Embedding of `Module.validate` (`modules/base.py` lines 168-182): concatenate, in the
order the code runs them, the payload issues, each monomer's issues, each gene
identifier's issues (against `kwargs.get("record")`), and the issues of the
non-canonical activity when present. -/
def Module.validate (m : Module) (ctx : Context) : List ValidationErrorInfo :=
  m.extra_info.validate ctx
  ++ m.integrated_monomers.flatMap Monomer.validate
  ++ m.genes.flatMap (fun g => g.validate ctx.record)
  ++ (match m.non_canonical_activity with
      | some nca => nca.validate ctx
      | none => [])

/-- The multiset of citations `Module.references` collects before dedup/sort:
every monomer's references, then every payload domain's references
(`modules/base.py` lines 186-190). -/
def Module.collectedReferences (m : Module) : List Citation :=
  m.integrated_monomers.flatMap Monomer.references
  ++ m.extra_info.get_domains.flatMap Domain.references

/-- Embedding of `Module.references` (`modules/base.py` lines 184-191): the Python
`sorted(list(set))` is the unique duplicate-free list of the collected
citations, sorted by the total Citation ordering. -/
def Module.references (m : Module) : List Citation :=
  List.insertionSort Citation.le m.collectedReferences.dedup

/-- Embedding of `Module.__init__` (`modules/base.py` lines 139-166): assign all fields, then
run full validation and raise `ValidationError` carrying the whole issue list
unless `validate=False` was passed. -/
def Module.init (module_type : ModuleType) (name : String) (genes : List GeneId)
    (active : Bool) (extra_info : ModuleInfo) (integrated_monomers : List Monomer)
    (non_canonical_activity : Option NonCanonicalActivity) (comment : Option String)
    (validateFlag : Bool) (ctx : Context) : Except ConstructError Module :=
  let m : Module :=
    ⟨module_type, name, genes, active, extra_info, integrated_monomers,
     non_canonical_activity, comment⟩
  if validateFlag then
    if m.validate ctx = [] then .ok m
    else .error (.validationError (m.validate ctx))
  else
    .ok m

/-- Embedding of `Module.from_json` (`modules/base.py` lines 193-214), in the code's own
evaluation order: type tag first (`ModuleType(raw["type"])`), then the payload
dispatch, then the truthiness-gated non-canonical activity, then the keyword
arguments of the `cls(...)` call in source order.  The `validate`/context
kwargs are forwarded everywhere except to `Monomer.from_json` (line 209 passes
no kwargs, so monomers always validate during construction). -/
def Module.from_json (raw : Json) (validateFlag : Bool) (ctx : Context) :
    Except ConstructError Module := do
  let tag ← match raw.lookup "type" with
    | some (.str s) => Except.ok s
    | _ => Except.error (.schemaError "type")
  let module_type ← match ModuleType.fromString? tag with
    | some t => Except.ok t
    | none => Except.error (.unknownVariant tag)
  let extra_info ← ModuleInfo.from_json raw
  let nca ← match raw.lookup "non_canonical_activity" with
    | some v =>
      if v.truthy then
        (NonCanonicalActivity.from_json v validateFlag ctx).map some
      else Except.ok none
    | none => Except.ok none
  let name ← match raw.lookup "name" with
    | some (.str s) => Except.ok s
    | _ => Except.error (.schemaError "name")
  let genes ← match raw.lookup "genes" with
    | some (.arr gs) => gs.mapM (fun g => GeneId.from_json g validateFlag ctx)
    | _ => Except.error (.schemaError "genes")
  let active ← match raw.lookup "active" with
    | some (.bool b) => Except.ok b
    | _ => Except.error (.schemaError "active")
  let comment ← match raw.lookup "comment" with
    | none => Except.ok none
    | some .null => Except.ok none
    | some (.str s) => Except.ok (some s)
    | some _ => Except.error (.schemaError "comment")
  let integrated_monomers ← match raw.lookup "integrated_monomers" with
    | none => Except.ok []
    | some (.arr ms) => ms.mapM (fun mm => Monomer.from_json mm true)
    | some _ => Except.error (.schemaError "integrated_monomers")
  Module.init module_type name genes active extra_info integrated_monomers nca comment
    validateFlag ctx

/-- The envelope's own literal fields in `Module.to_json`
(`modules/base.py` lines 217-221). -/
def moduleBaseFields (m : Module) : List (String × Json) :=
  [("type", .str m.module_type.value), ("name", .str m.name),
   ("genes", .arr (m.genes.map GeneId.to_json)), ("active", .bool m.active)]

/-- Embedding of `if self.integrated_monomers: ret["integrated_monomers"] = ...`
(`modules/base.py` lines 224-227). -/
def applyMonomers (m : Module) (ret : List (String × Json)) : List (String × Json) :=
  if m.integrated_monomers.isEmpty then ret
  else insertField ret "integrated_monomers"
    (.arr (m.integrated_monomers.map Monomer.to_json))

/-- Embedding of `if self.non_canonical_activity: ret["non_canonical_activity"] = ...`
(`modules/base.py` lines 229-230); a present instance is always truthy. -/
def applyNca (m : Module) (ret : List (String × Json)) : List (String × Json) :=
  match m.non_canonical_activity with
  | some nca => insertField ret "non_canonical_activity" nca.to_json
  | none => ret

/-- Embedding of `if self.comment: ret["comment"] = self.comment`
(`modules/base.py` lines 232-233); the empty string is falsy. -/
def applyComment (m : Module) (ret : List (String × Json)) : List (String × Json) :=
  match m.comment with
  | some c => if c = "" then ret else insertField ret "comment" (.str c)
  | none => ret

/-- The field list built by `Module.to_json` (`modules/base.py` lines 216-235):
the envelope literal merged with the flattened payload fields, then the
truthiness-gated optional fields, each applied by Python dict assignment. -/
def Module.to_json_fields (m : Module) : List (String × Json) :=
  applyComment m (applyNca m
    (applyMonomers m (mergeFields (moduleBaseFields m) m.extra_info.to_json)))

/-- Embedding of `Module.to_json`: `if self.comment:` and `if self.integrated_monomers:` are
Python truthiness checks, so empty optionals are omitted. -/
def Module.to_json (m : Module) : Json :=
  .obj m.to_json_fields

/-- Embedding of `FunctionEvidence` from `gene/function.py` lines 7-45. -/
structure FunctionEvidence where
  method : String
  references : List Citation
deriving DecidableEq, Repr

/-- Embedding of `FunctionEvidence.VALID_METHODS` (`gene/function.py` lines 11-16). -/
def FunctionEvidence.VALID_METHODS : List String :=
  ["Other in vivo study", "Heterologous expression", "Knock-out", "Activity assay"]

/-- Embedding of `FunctionEvidence.validate` (`gene/function.py` lines 29-34). -/
def FunctionEvidence.validate (e : FunctionEvidence) : List ValidationErrorInfo :=
  (if e.method ∈ FunctionEvidence.VALID_METHODS then []
   else [⟨"method", "Invalid method: " ++ e.method⟩])
  ++ validate_citation_list e.references

/-- Embedding of `FunctionEvidence.__init__` (`gene/function.py` lines 18-27): assign fields,
then validate and raise on a non-empty issue list unless `validate=False`. -/
def FunctionEvidence.init (method : String) (references : List Citation)
    (validateFlag : Bool) : Except ConstructError FunctionEvidence :=
  let e : FunctionEvidence := ⟨method, references⟩
  if validateFlag then
    if e.validate = [] then .ok e else .error (.validationError e.validate)
  else
    .ok e

/-- Embedding of `FunctionEvidence.from_json` (`gene/function.py` lines 36-42). -/
def FunctionEvidence.from_json (raw : Json) (validateFlag : Bool) :
    Except ConstructError FunctionEvidence := do
  let method ← match raw.lookup "method" with
    | some (.str s) => Except.ok s
    | _ => Except.error (.schemaError "method")
  let references ← match raw.lookup "references" with
    | some (.arr rs) =>
        rs.mapM (fun r => (Citation.from_json r).mapError ConstructError.schemaError)
    | _ => Except.error (.schemaError "references")
  FunctionEvidence.init method references validateFlag

def FunctionEvidence.to_json (e : FunctionEvidence) : Json :=
  .obj [("method", .str e.method), ("references", .arr (e.references.map Citation.to_json))]

/-- Embedding of `MutationPhenotype` from `gene/function.py` lines 48-89. -/
structure MutationPhenotype where
  phenotype : String
  details : Option String
  references : List Citation
deriving DecidableEq, Repr

/-- Embedding of `MutationPhenotype.validate` (`gene/function.py` lines 65-70):
`if not self.phenotype` is a Python truthiness check on the string. -/
def MutationPhenotype.validate (mp : MutationPhenotype) : List ValidationErrorInfo :=
  (if mp.phenotype = "" then
    [⟨"MutationPhenotype.phenotype", "Phenotype must be provided"⟩]
   else [])
  ++ validate_citation_list mp.references

/-- Embedding of `MutationPhenotype.__init__` (`gene/function.py` lines 53-63). -/
def MutationPhenotype.init (phenotype : String) (references : List Citation)
    (details : Option String) (validateFlag : Bool) :
    Except ConstructError MutationPhenotype :=
  let mp : MutationPhenotype := ⟨phenotype, details, references⟩
  if validateFlag then
    if mp.validate = [] then .ok mp else .error (.validationError mp.validate)
  else
    .ok mp

/-- Embedding of `MutationPhenotype.from_json` (`gene/function.py` lines 72-79). -/
def MutationPhenotype.from_json (raw : Json) (validateFlag : Bool) :
    Except ConstructError MutationPhenotype := do
  let phenotype ← match raw.lookup "phenotype" with
    | some (.str s) => Except.ok s
    | _ => Except.error (.schemaError "phenotype")
  let details ← match raw.lookup "details" with
    | none => Except.ok none
    | some .null => Except.ok none
    | some (.str s) => Except.ok (some s)
    | some _ => Except.error (.schemaError "details")
  let references ← match raw.lookup "references" with
    | some (.arr rs) =>
        rs.mapM (fun r => (Citation.from_json r).mapError ConstructError.schemaError)
    | _ => Except.error (.schemaError "references")
  MutationPhenotype.init phenotype references details validateFlag

/-- Embedding of `MutationPhenotype.to_json` (`gene/function.py` lines 81-89): `details` is
emitted only when truthy. -/
def MutationPhenotype.to_json (mp : MutationPhenotype) : Json :=
  .obj ([("phenotype", .str mp.phenotype),
         ("references", .arr (mp.references.map Citation.to_json))]
    ++ (match mp.details with
        | some d => if d = "" then [] else [("details", Json.str d)]
        | none => []))

/-- Embedding of `GeneFunction` from `gene/function.py` lines 92-168. -/
structure GeneFunction where
  function : String
  evidence : List FunctionEvidence
  details : Option String
  mutation_phenotype : Option MutationPhenotype
deriving DecidableEq, Repr

/-- Embedding of `GeneFunction.VALID_FUNCTIONS` (`gene/function.py` lines 98-109). -/
def GeneFunction.VALID_FUNCTIONS : List String :=
  ["Activation / processing", "Maturation", "Precursor", "Precursor biosynthesis",
   "Regulation", "Resistance/immunity", "Scaffold biosynthesis", "Tailoring",
   "Transport", "Other"]

/-- Python truthiness of an optional string (`not self.details`). -/
def optStrFalsy : Option String → Bool
  | none => true
  | some s => s = ""

/-- Embedding of `GeneFunction.validate` (`gene/function.py` lines 129-142), in the code's
order: function vocabulary check, details-required-for-Other check, then the
mutation phenotype's issues, then each evidence entry's issues. -/
def GeneFunction.validate (gf : GeneFunction) (_ctx : Context) : List ValidationErrorInfo :=
  (if gf.function ∈ GeneFunction.VALID_FUNCTIONS then []
   else [⟨"GeneFunction.function", "Invalid function: " ++ gf.function⟩])
  ++ (if gf.function = "Other" ∧ optStrFalsy gf.details then
       [⟨"GeneFunction.details", "Details must be provided for 'Other' function"⟩]
      else [])
  ++ (match gf.mutation_phenotype with
      | some mp => mp.validate
      | none => [])
  ++ gf.evidence.flatMap FunctionEvidence.validate

/-- Embedding of `GeneFunction.__init__` (`gene/function.py` lines 111-127): assign fields,
then validate and raise on a non-empty issue list unless `validate=False`. -/
def GeneFunction.init (function : String) (evidence : List FunctionEvidence)
    (details : Option String) (mutation_phenotype : Option MutationPhenotype)
    (validateFlag : Bool) (ctx : Context) : Except ConstructError GeneFunction :=
  let gf : GeneFunction := ⟨function, evidence, details, mutation_phenotype⟩
  if validateFlag then
    if gf.validate ctx = [] then .ok gf else .error (.validationError (gf.validate ctx))
  else
    .ok gf

/-- Embedding of `GeneFunction.from_json` (`gene/function.py` lines 144-152), in Python's
argument evaluation order.  Note lines 148 and 150 call
`FunctionEvidence.from_json` and `MutationPhenotype.from_json` WITHOUT
forwarding `**kwargs`, so the children always validate during construction,
even when the caller passed `validate=False`; the mutation phenotype is gated
on key presence (`"mutation_phenotype" in raw`), not truthiness. -/
def GeneFunction.from_json (raw : Json) (validateFlag : Bool) (ctx : Context) :
    Except ConstructError GeneFunction := do
  let fnObj ← match raw.lookup "function" with
    | some v => Except.ok v
    | none => Except.error (.schemaError "function")
  let function ← match fnObj.lookup "name" with
    | some (.str s) => Except.ok s
    | _ => Except.error (.schemaError "function.name")
  let evidence ← match raw.lookup "evidence" with
    | some (.arr es) => es.mapM (fun e => FunctionEvidence.from_json e true)
    | _ => Except.error (.schemaError "evidence")
  let details ← match fnObj.lookup "details" with
    | none => Except.ok none
    | some .null => Except.ok none
    | some (.str s) => Except.ok (some s)
    | some _ => Except.error (.schemaError "function.details")
  let mutation_phenotype ← match raw.lookup "mutation_phenotype" with
    | none => Except.ok none
    | some mp => (MutationPhenotype.from_json mp true).map some
  GeneFunction.init function evidence details mutation_phenotype validateFlag ctx

/-- Embedding of `GeneFunction.to_json` (`gene/function.py` lines 154-168): name and details
nest under `function`, evidence sits at the top level, optional fields are
emitted only when truthy. -/
def GeneFunction.to_json (gf : GeneFunction) : Json :=
  let fn : List (String × Json) :=
    [("name", .str gf.function)]
    ++ (match gf.details with
        | some d => if d = "" then [] else [("details", Json.str d)]
        | none => [])
  .obj ([("function", .obj fn),
         ("evidence", .arr (gf.evidence.map FunctionEvidence.to_json))]
    ++ (match gf.mutation_phenotype with
        | some mp => [("mutation_phenotype", mp.to_json)]
        | none => []))

/-- Python-level failures of `aSModule.__init__`: `MibigError` from
`mibig/errors.py`, or the `NameError` raised when the body references the
undefined name `location`. -/
inductive PyError where
  | mibigError (msg : String)
  | nameError (name : String)
deriving DecidableEq, Repr

/-- Embedding of `aSModule` from `mibig/utils_modules.py` lines 3-19. -/
structure aSModule where
  domains : List String
  locus_tag : String
  starterModule : Option Bool
  final_module : Option Bool
  location : Option (List Int)

/-- Python truthiness of the optional `domains` argument. -/
def optListTruthy (l : Option (List String)) : Bool :=
  match l with
  | none => false
  | some xs => !xs.isEmpty

/-- Python truthiness of the optional `locus_tag` argument. -/
def optStrTruthy (s : Option String) : Bool :=
  match s with
  | none => false
  | some s => decide (s ≠ "")

/-- Embedding of `aSModule.__init__` (`mibig/utils_modules.py` lines 4-19):
`if not all([domains, locus_tag])` raises `MibigError`; the next check,
`if not (location is None or len(location) == 2)`, references the undefined
name `location` (the parameter is `locations`), so Python raises `NameError`
unconditionally once the first check passes.  The field assignments are never
reached. -/
def aSModule.init (domains : Option (List String)) (locus_tag : Option String)
    (_starterModule : Option Bool) (_final_module : Option Bool)
    (_locations : Option (List Int)) : Except PyError aSModule :=
  if ¬ (optListTruthy domains && optStrTruthy locus_tag) then
    .error (.mibigError "Domain list and locus tag are required")
  else
    .error (.nameError "location")

/-! Concrete inputs used to instantiate the theorems below. -/

/-- A citation with a pubmed-style identifier. -/
def citA : Citation := ⟨"pubmed", "123"⟩

/-- A citation with a doi-style identifier. -/
def citB : Citation := ⟨"doi", "10.1/x"⟩

/-- An independently invalid monomer: empty name. -/
def monC3 : Monomer := ⟨"", []⟩

/-- A gene identifier that does not resolve against an empty genome record. -/
def geneC3 : GeneId := ⟨"geneX"⟩

/-- A module whose payload, one monomer and one gene identifier are each
independently invalid. -/
def modC3 : Module :=
  ⟨.other, "m", [geneC3], true, ⟨[], [], [⟨"payload", "invalid payload"⟩]⟩,
   [monC3], none, none⟩

/-- Full-quality context with an empty genome record. -/
def ctxC3 : Context := ⟨some .full, some ⟨[]⟩⟩

/-- Citations {citA, citB} attached as: monomer carries citA, payload domain
carries citB. -/
def modC4a : Module :=
  ⟨.other, "m", [], true, ⟨[], [⟨"D", [citB]⟩], []⟩, [⟨"mon", [citA]⟩], none, none⟩

/-- The same citation set attached in a different insertion order across
different sub-objects: monomer carries citB, domain carries citA twice with
citB between. -/
def modC4b : Module :=
  ⟨.other, "m", [], true, ⟨[], [⟨"D", [citA, citB, citA]⟩], []⟩, [⟨"mon", [citB]⟩],
   none, none⟩

/-- A module exercising every optional branch of the serializer: payload
fields, a payload domain, one valid integrated monomer, a non-canonical
activity and a comment. -/
def modC1 : Module :=
  ⟨.cal, "mod2", [⟨"g1"⟩], false,
   ⟨[("substrate", .str "x"), ("flag", .bool true)], [⟨"D", [citA]⟩], []⟩,
   [⟨"mon", [citA]⟩],
   some ⟨[⟨"Activity assay", [citA]⟩], some 3, some true, none⟩,
   some "note"⟩

/-- A well-formed raw module tree whose `integrated_monomers` key is present
but empty. -/
def rawC1 : Json :=
  .obj [("type", .str "other"), ("name", .str "mod1"), ("genes", .arr []),
        ("active", .bool true), ("integrated_monomers", .arr [])]

/-- An evidence entry with an out-of-vocabulary method. -/
def evC9 : NcaEvidence := ⟨"bogus", []⟩

/-- A non-canonical activity whose only evidence entry is invalid. -/
def ncaC9 : NonCanonicalActivity := ⟨[evC9], none, none, none⟩

/-- The at-least-one-evidence issue from `NonCanonicalActivity.validate`. -/
def ncaEmptyIssue : ValidationErrorInfo :=
  ⟨"NonCanonicalActivity.evidence", "At least one evidence must be provided"⟩

/-- The details-required issue from `GeneFunction.validate`. -/
def detailsIssue : ValidationErrorInfo :=
  ⟨"GeneFunction.details", "Details must be provided for 'Other' function"⟩

/-- A gene function with an invalid mutation phenotype and an invalid evidence
entry (and nothing else wrong). -/
def gfC6 : GeneFunction :=
  ⟨"Tailoring", [⟨"bogus-method", []⟩], none, some ⟨"", none, []⟩⟩

/-- A shape-correct raw gene-function tree whose single evidence entry has an
out-of-vocabulary method. -/
def rawC8 : Json :=
  .obj [("function", .obj [("name", .str "Tailoring")]),
        ("evidence", .arr [.obj [("method", .str "bogus"), ("references", .arr [])]])]

/-! Helper notions for the round-trip analysis. -/

/-- Collapse a Python-falsy optional string to `None`, as the serializer's
`if self.comment:` check does. -/
def normOptStr : Option String → Option String
  | some c => if c = "" then none else some c
  | none => none

/-- The module `Module.from_json` reconstructs from `m.to_json`: identical to
`m` except that the payload's opaque domain/issue data (not part of the raw
tree) is empty and a falsy comment is normalized to `None`. -/
def Module.reparsed (m : Module) : Module :=
  ⟨m.module_type, m.name, m.genes, m.active, ⟨m.extra_info.fields, [], []⟩,
   m.integrated_monomers, m.non_canonical_activity, normOptStr m.comment⟩

/-- The optional `integrated_monomers` entry of `Module.to_json`. -/
def monOptFields (m : Module) : List (String × Json) :=
  if m.integrated_monomers.isEmpty then []
  else [("integrated_monomers", .arr (m.integrated_monomers.map Monomer.to_json))]

/-- The optional `non_canonical_activity` entry of `Module.to_json`. -/
def ncaOptFields (m : Module) : List (String × Json) :=
  match m.non_canonical_activity with
  | some nca => [("non_canonical_activity", nca.to_json)]
  | none => []

/-- The optional `comment` entry of `Module.to_json`. -/
def comOptFields (m : Module) : List (String × Json) :=
  match m.comment with
  | some c => if c = "" then [] else [("comment", .str c)]
  | none => []

/-! ## Theorems -/

/-- Reduction of a successful bind in the `Except` monad. -/
theorem except_ok_bind {ε α β : Type} (a : α) (f : α → Except ε β) :
    (Except.ok a : Except ε α) >>= f = f a := rfl

/-- Reduction of a failed bind in the `Except` monad. -/
theorem except_error_bind {ε α β : Type} (e : ε) (f : α → Except ε β) :
    (Except.error e : Except ε α) >>= f = Except.error e := rfl

/-- C2: for every NonCanonicalActivity with an empty evidence list, `validate`
returns exactly the at-least-one-evidence issue (in particular a non-empty
issue list) when the context quality level is FULL, and returns an empty issue
list when the quality level is QUESTIONABLE, all other fields equal. -/
theorem claim_C2_quality_exemption (it : Option Int) (ne sk : Option Bool)
    (rec : Option Record) :
    NonCanonicalActivity.validate ⟨[], it, ne, sk⟩ ⟨some .full, rec⟩ = [ncaEmptyIssue]
    ∧ NonCanonicalActivity.validate ⟨[], it, ne, sk⟩ ⟨some .questionable, rec⟩ = [] := by
  constructor <;> rfl

/-- C10: `aSModule.__init__` never produces an object: when `domains` or
`locus_tag` is missing (Python-falsy), it raises `MibigError`; otherwise the
location check references the undefined name `location` and raises
`NameError`. -/
theorem claim_C10_asmodule_never_constructs (domains : Option (List String))
    (locus_tag : Option String) (s f : Option Bool) (locs : Option (List Int)) :
    aSModule.init domains locus_tag s f locs =
      .error (if optListTruthy domains && optStrTruthy locus_tag then
                .nameError "location"
              else .mibigError "Domain list and locus tag are required") := by
  unfold aSModule.init
  by_cases h : (optListTruthy domains && optStrTruthy locus_tag) = true <;> simp [h]

/-- C5: constructing a Module from raw input whose type tag is not one of the
9 enumerated values fails with an `unknownVariant` error naming the offending
tag, regardless of the validation flag, the context, and every other field of
the input — in particular before any field-level validation runs. -/
theorem claim_C5_unknown_tag (raw : Json) (v : Bool) (ctx : Context) (tag : String)
    (hty : raw.lookup "type" = some (.str tag))
    (htag : ModuleType.fromString? tag = none) :
    Module.from_json raw v ctx = .error (.unknownVariant tag) := by
  unfold Module.from_json
  rw [hty]
  simp only [except_ok_bind, except_error_bind, htag]

/-- C5 witness: a raw tree with tag `"bogus"` and an ill-typed `name` field
(which would fail field-level checks) still fails with `unknownVariant "bogus"`. -/
theorem claim_C5_unknown_tag_witness :
    (Json.obj [("type", .str "bogus"), ("name", .num 3)]).lookup "type"
      = some (.str "bogus")
    ∧ ModuleType.fromString? "bogus" = none
    ∧ Module.from_json (Json.obj [("type", .str "bogus"), ("name", .num 3)]) true
        ⟨some .full, none⟩ = .error (.unknownVariant "bogus") :=
  ⟨rfl, rfl,
   claim_C5_unknown_tag (Json.obj [("type", .str "bogus"), ("name", .num 3)]) true
     ⟨some .full, none⟩ "bogus" rfl rfl⟩

/-- C6 counterexample: on a GeneFunction whose evidence entry and mutation
phenotype are both invalid, `validate()` emits the mutation-phenotype issue
BEFORE the evidence issue, although `evidence` is declared before
`mutation_phenotype` on the class (`gene/function.py` lines 93-96) — so the
issue list does not follow the children's field-declaration order. -/
theorem claim_C6_counterexample :
    GeneFunction.validate gfC6 ⟨none, none⟩ =
      [⟨"MutationPhenotype.phenotype", "Phenotype must be provided"⟩,
       ⟨"method", "Invalid method: bogus-method"⟩]
    ∧ GeneFunction.validate gfC6 ⟨none, none⟩ ≠
        gfC6.evidence.flatMap FunctionEvidence.validate
        ++ MutationPhenotype.validate ⟨"", none, []⟩ := by
  constructor
  · rfl
  · decide

/-- C6 amended: a parent's `validate()` collects its own direct-field issues
first (in field-declaration order) and then the fully-recursive issues of
every child in a stable, per-class order fixed by the code — for GeneFunction
the mutation phenotype before the evidence list, for Module the payload, the
monomers, the gene identifiers, then the non-canonical activity — which is not
always the order the children are declared on the parent. -/
theorem claim_C6_amended (gf : GeneFunction) (m : Module) (ctx : Context) :
    gf.validate ctx =
      ((if gf.function ∈ GeneFunction.VALID_FUNCTIONS then []
        else [⟨"GeneFunction.function", "Invalid function: " ++ gf.function⟩])
       ++ (if gf.function = "Other" ∧ optStrFalsy gf.details then [detailsIssue]
           else []))
      ++ ((match gf.mutation_phenotype with
           | some mp => mp.validate
           | none => [])
          ++ gf.evidence.flatMap FunctionEvidence.validate)
    ∧ m.validate ctx =
      m.extra_info.validate ctx
      ++ (m.integrated_monomers.flatMap Monomer.validate
          ++ (m.genes.flatMap (fun g => g.validate ctx.record)
              ++ (match m.non_canonical_activity with
                  | some nca => nca.validate ctx
                  | none => []))) := by
  constructor <;>
    simp [GeneFunction.validate, Module.validate, detailsIssue, List.append_assoc]

/-- Issues produced by the citation-list validator are citation issues. -/
theorem field_of_mem_validate_citation_list {i : ValidationErrorInfo}
    {refs : List Citation} (h : i ∈ validate_citation_list refs) :
    i.field = "Citation" := by
  unfold validate_citation_list at h
  rw [List.mem_flatMap] at h
  obtain ⟨c, _, hc⟩ := h
  unfold Citation.validate at hc
  split at hc
  · rw [List.mem_singleton] at hc
    subst hc
    rfl
  · simp at hc

/-- Issues produced by `MutationPhenotype.validate` concern the phenotype or a
citation. -/
theorem field_of_mem_mp_validate {i : ValidationErrorInfo} {mp : MutationPhenotype}
    (h : i ∈ mp.validate) :
    i.field = "MutationPhenotype.phenotype" ∨ i.field = "Citation" := by
  unfold MutationPhenotype.validate at h
  rw [List.mem_append] at h
  rcases h with h | h
  · left
    revert h
    split
    · intro h
      rw [List.mem_singleton] at h
      subst h
      rfl
    · intro h
      simp at h
  · exact Or.inr (field_of_mem_validate_citation_list h)

/-- Issues produced by `FunctionEvidence.validate` concern the method or a
citation. -/
theorem field_of_mem_fe_validate {i : ValidationErrorInfo} {e : FunctionEvidence}
    (h : i ∈ e.validate) :
    i.field = "method" ∨ i.field = "Citation" := by
  unfold FunctionEvidence.validate at h
  rw [List.mem_append] at h
  rcases h with h | h
  · left
    revert h
    split
    · intro h
      simp at h
    · intro h
      rw [List.mem_singleton] at h
      subst h
      rfl
  · exact Or.inr (field_of_mem_validate_citation_list h)

/-- Python truthiness of an optional string, as a proposition. -/
theorem optStrFalsy_iff (o : Option String) :
    optStrFalsy o = true ↔ (o = none ∨ o = some "") := by
  cases o with
  | none => simp [optStrFalsy]
  | some s => simp [optStrFalsy]

/-- C7: `GeneFunction.validate` reports the details-required issue if and only
if the function name equals "Other" and details is absent or empty; in
particular `details="text"` never yields it, and non-"Other" functions never
require details. -/
theorem claim_C7_details_required_iff (gf : GeneFunction) (ctx : Context) :
    detailsIssue ∈ gf.validate ctx ↔
      (gf.function = "Other" ∧ (gf.details = none ∨ gf.details = some "")) := by
  unfold GeneFunction.validate
  simp only [List.mem_append]
  constructor
  · rintro (((h | h) | h) | h)
    · exfalso
      revert h
      split
      · intro h
        simp at h
      · intro h
        rw [List.mem_singleton] at h
        have hf := congrArg ValidationErrorInfo.field h
        simp [detailsIssue] at hf
    · revert h
      split
      · rename_i hcond
        intro _
        exact ⟨hcond.1, (optStrFalsy_iff gf.details).mp hcond.2⟩
      · intro h
        simp at h
    · exfalso
      rcases hmp : gf.mutation_phenotype with _ | mp
      · rw [hmp] at h
        simp at h
      · rw [hmp] at h
        rcases field_of_mem_mp_validate h with hf | hf <;>
          exact absurd hf (by decide)
    · exfalso
      rw [List.mem_flatMap] at h
      obtain ⟨e, _, he⟩ := h
      rcases field_of_mem_fe_validate he with hf | hf <;>
        exact absurd hf (by decide)
  · rintro ⟨h1, h2⟩
    left
    left
    right
    rw [if_pos ⟨h1, (optStrFalsy_iff gf.details).mpr h2⟩]
    exact List.mem_singleton.mpr rfl

/-- C8 amended: for the direct constructors of GeneFunction and Module both
construction modes hold: construct-with-validation fails atomically carrying
the full issue list whenever any issue exists, and construct-without-validation
always succeeds and leaves `validate()` callable separately.  (The raw-input
helpers `from_json` do NOT fully honor the skip mode: see the counterexample —
children constructed by `GeneFunction.from_json` and the monomers in
`Module.from_json` are built without forwarding the flag and still validate.) -/
theorem claim_C8_amended (fn : String) (ev : List FunctionEvidence)
    (det : Option String) (mp : Option MutationPhenotype) (mt : ModuleType)
    (nm : String) (gs : List GeneId) (av : Bool) (xi : ModuleInfo)
    (ims : List Monomer) (nca : Option NonCanonicalActivity) (cm : Option String)
    (ctx : Context) :
    GeneFunction.init fn ev det mp false ctx = .ok ⟨fn, ev, det, mp⟩
    ∧ GeneFunction.init fn ev det mp true ctx =
        (if GeneFunction.validate ⟨fn, ev, det, mp⟩ ctx = []
         then .ok ⟨fn, ev, det, mp⟩
         else .error (.validationError (GeneFunction.validate ⟨fn, ev, det, mp⟩ ctx)))
    ∧ Module.init mt nm gs av xi ims nca cm false ctx =
        .ok ⟨mt, nm, gs, av, xi, ims, nca, cm⟩
    ∧ Module.init mt nm gs av xi ims nca cm true ctx =
        (if Module.validate ⟨mt, nm, gs, av, xi, ims, nca, cm⟩ ctx = []
         then .ok ⟨mt, nm, gs, av, xi, ims, nca, cm⟩
         else .error
           (.validationError (Module.validate ⟨mt, nm, gs, av, xi, ims, nca, cm⟩ ctx))) :=
  ⟨rfl, rfl, rfl, rfl⟩

/-- C8 counterexample: `GeneFunction.from_json` with validation explicitly
skipped still fails on shape-correct input, because line 148 of
`gene/function.py` constructs each `FunctionEvidence` without forwarding the
kwargs, so the child validates during construction and raises. -/
theorem claim_C8_counterexample :
    GeneFunction.from_json rawC8 false ⟨none, none⟩ =
      .error (.validationError [⟨"method", "Invalid method: bogus"⟩]) := rfl

/-- C9: `NonCanonicalActivity.validate` validates every evidence entry and
includes its issues in the result regardless of the quality level; the
QUESTIONABLE exemption waives only the non-emptiness requirement, never
per-evidence validation. -/
theorem claim_C9_per_evidence_validation (nca : NonCanonicalActivity) (ctx : Context)
    (e : NcaEvidence) (i : ValidationErrorInfo)
    (he : e ∈ nca.evidence) (hi : i ∈ e.validate) :
    i ∈ nca.validate ctx
    ∧ nca.validate ctx =
        (if ctx.quality ≠ some .questionable ∧ nca.evidence = [] then [ncaEmptyIssue]
         else [])
        ++ nca.evidence.flatMap NcaEvidence.validate := by
  constructor
  · unfold NonCanonicalActivity.validate
    rw [List.mem_append, List.mem_flatMap]
    exact Or.inr ⟨e, he, hi⟩
  · unfold NonCanonicalActivity.validate
    congr 1
    by_cases h1 : ctx.quality = some .questionable <;>
      by_cases h2 : nca.evidence = [] <;>
        simp [h1, h2, ncaEmptyIssue]

/-- C9 witness: under QUESTIONABLE quality, the invalid evidence entry's issue
still appears in the activity's issue list. -/
theorem claim_C9_per_evidence_validation_witness :
    evC9 ∈ ncaC9.evidence
    ∧ (⟨"Evidence.method", "Invalid method: bogus"⟩ : ValidationErrorInfo) ∈ evC9.validate
    ∧ (⟨"Evidence.method", "Invalid method: bogus"⟩ : ValidationErrorInfo) ∈
        ncaC9.validate ⟨some .questionable, none⟩ :=
  ⟨by decide, by decide,
   (claim_C9_per_evidence_validation ncaC9 ⟨some .questionable, none⟩ evC9
     ⟨"Evidence.method", "Invalid method: bogus"⟩ (by decide) (by decide)).1⟩

/-- C3: for a Module whose variant payload, at least one integrated monomer
and at least one gene identifier are each independently invalid, `validate()`
returns at least 3 issues, and every issue of each of the three sources appears
in the result — validation of one part never suppresses the others. -/
theorem claim_C3_aggregation_completeness (m : Module) (ctx : Context)
    (mon : Monomer) (g : GeneId)
    (hpay : m.extra_info.validate ctx ≠ [])
    (hmonMem : mon ∈ m.integrated_monomers) (hmon : mon.validate ≠ [])
    (hgMem : g ∈ m.genes) (hg : g.validate ctx.record ≠ []) :
    3 ≤ (m.validate ctx).length
    ∧ (∀ i ∈ m.extra_info.validate ctx, i ∈ m.validate ctx)
    ∧ (∀ i ∈ mon.validate, i ∈ m.validate ctx)
    ∧ (∀ i ∈ g.validate ctx.record, i ∈ m.validate ctx) := by
  have hmonNe : m.integrated_monomers.flatMap Monomer.validate ≠ [] := by
    obtain ⟨i, hi⟩ := List.exists_mem_of_ne_nil _ hmon
    intro hempty
    exact absurd (hempty ▸ List.mem_flatMap.mpr ⟨mon, hmonMem, hi⟩) (List.not_mem_nil i)
  have hgNe : m.genes.flatMap (fun g' => g'.validate ctx.record) ≠ [] := by
    obtain ⟨i, hi⟩ := List.exists_mem_of_ne_nil _ hg
    intro hempty
    exact absurd (hempty ▸ List.mem_flatMap.mpr ⟨g, hgMem, hi⟩) (List.not_mem_nil i)
  refine ⟨?_, ?_, ?_, ?_⟩
  · have h1 : 1 ≤ (m.extra_info.validate ctx).length :=
      List.length_pos.mpr hpay
    have h2 : 1 ≤ (m.integrated_monomers.flatMap Monomer.validate).length :=
      List.length_pos.mpr hmonNe
    have h3 : 1 ≤ (m.genes.flatMap (fun g' => g'.validate ctx.record)).length :=
      List.length_pos.mpr hgNe
    unfold Module.validate
    simp only [List.length_append]
    omega
  · intro i hi
    unfold Module.validate
    simp only [List.mem_append]
    exact Or.inl (Or.inl (Or.inl hi))
  · intro i hi
    unfold Module.validate
    simp only [List.mem_append]
    exact Or.inl (Or.inl (Or.inr (List.mem_flatMap.mpr ⟨mon, hmonMem, hi⟩)))
  · intro i hi
    unfold Module.validate
    simp only [List.mem_append]
    exact Or.inl (Or.inr (List.mem_flatMap.mpr ⟨g, hgMem, hi⟩))

/-- C3 witness: a concrete module with an invalid payload, an invalid monomer
and an unresolvable gene identifier yields at least 3 issues. -/
theorem claim_C3_aggregation_completeness_witness :
    (modC3.extra_info.validate ctxC3 ≠ []
     ∧ monC3 ∈ modC3.integrated_monomers ∧ monC3.validate ≠ []
     ∧ geneC3 ∈ modC3.genes ∧ geneC3.validate ctxC3.record ≠ [])
    ∧ 3 ≤ (modC3.validate ctxC3).length :=
  ⟨⟨by decide, by decide, by decide, by decide, by decide⟩,
   (claim_C3_aggregation_completeness modC3 ctxC3 monC3 geneC3 (by decide) (by decide)
     (by decide) (by decide) (by decide)).1⟩

/-- C4: two Modules carrying the same set of citations across their
sub-objects (monomers and payload domains), in whatever insertion order,
compute identical citation indexes: `references` deduplicates and sorts by the
total Citation ordering, so the output is insertion-order independent. -/
theorem claim_C4_citation_determinism (m1 m2 : Module)
    (h : List.Perm m1.collectedReferences.dedup m2.collectedReferences.dedup) :
    m1.references = m2.references := by
  unfold Module.references
  exact List.eq_of_perm_of_sorted
    ((List.perm_insertionSort Citation.le m1.collectedReferences.dedup).trans
      (h.trans (List.perm_insertionSort Citation.le m2.collectedReferences.dedup).symm))
    (List.sorted_insertionSort Citation.le m1.collectedReferences.dedup)
    (List.sorted_insertionSort Citation.le m2.collectedReferences.dedup)

/-- C4 witness: the same two citations attached in different insertion orders
across different sub-objects (and with duplicates) produce identical
`references` output. -/
theorem claim_C4_citation_determinism_witness :
    List.Perm modC4a.collectedReferences.dedup modC4b.collectedReferences.dedup
    ∧ modC4a.references = modC4b.references :=
  ⟨by decide, claim_C4_citation_determinism modC4a modC4b (by decide)⟩

/-- Appending under a key absent from the prefix. -/
theorem lookupField_append_of_not_mem (l1 l2 : List (String × Json)) (k : String)
    (h : ∀ p ∈ l1, p.1 ≠ k) :
    lookupField (l1 ++ l2) k = lookupField l2 k := by
  induction l1 with
  | nil => rfl
  | cons p rest ih =>
    rcases p with ⟨k', v⟩
    simp only [List.cons_append, lookupField]
    rw [if_neg (h ⟨k', v⟩ (List.mem_cons_self _ rest))]
    exact ih (fun q hq => h q (List.mem_cons_of_mem _ hq))

/-- Python dict assignment of a fresh key appends it. -/
theorem insertField_eq_append (l : List (String × Json)) (k : String) (v : Json)
    (h : ∀ p ∈ l, p.1 ≠ k) :
    insertField l k v = l ++ [(k, v)] := by
  induction l with
  | nil => rfl
  | cons p rest ih =>
    unfold insertField
    rw [if_neg (h p (List.mem_cons_self p rest))]
    rw [ih (fun q hq => h q (List.mem_cons_of_mem p hq)), List.cons_append]

/-- Python `{**base, **extra}` is plain concatenation when the extra keys are
pairwise distinct and disjoint from the base keys. -/
theorem mergeFields_eq_append (extra : List (String × Json)) :
    ∀ (base : List (String × Json)),
    (extra.map Prod.fst).Nodup →
    (∀ p ∈ extra, ∀ q ∈ base, q.1 ≠ p.1) →
    mergeFields base extra = base ++ extra := by
  induction extra with
  | nil => intro base _ _; simp [mergeFields]
  | cons p rest ih =>
    intro base hnd hdisj
    rw [List.map_cons, List.nodup_cons] at hnd
    have hstep : insertField base p.1 p.2 = base ++ [(p.1, p.2)] :=
      insertField_eq_append base p.1 p.2
        (fun q hq => hdisj p (List.mem_cons_self p rest) q hq)
    unfold mergeFields
    rw [List.foldl_cons]
    have := ih (base ++ [(p.1, p.2)]) hnd.2 ?_
    · unfold mergeFields at this
      rw [hstep, this, List.append_assoc]
      rfl
    · intro q hq r hr
      rcases List.mem_append.mp hr with hr | hr
      · exact hdisj q (List.mem_cons_of_mem p hq) r hr
      · rw [List.mem_singleton] at hr
        subst hr
        intro hcontra
        exact hnd.1 (hcontra ▸ List.mem_map_of_mem Prod.fst hq)

/-- Running `mapM` over a serializer's `map` output undoes it when every element round-trips. -/
theorem mapM_map_ok {ε α β : Type} (g : α → β) (f : β → Except ε α) (l : List α)
    (h : ∀ x ∈ l, f (g x) = .ok x) :
    (l.map g).mapM f = .ok l := by
  induction l with
  | nil => rfl
  | cons x xs ih =>
    rw [List.map_cons, List.mapM_cons, h x (List.mem_cons_self x xs),
      except_ok_bind, ih (fun y hy => h y (List.mem_cons_of_mem x hy))]
    rfl

/-- Citations round-trip through their raw form. -/
theorem citation_roundtrip (c : Citation) :
    Citation.from_json c.to_json = .ok c := rfl

/-- Evidence entries round-trip through their raw form when validation is
skipped. -/
theorem nca_evidence_roundtrip (e : NcaEvidence) :
    NcaEvidence.from_json e.to_json false = .ok e := by
  unfold NcaEvidence.from_json
  rw [show e.to_json.lookup "method" = some (Json.str e.method) from rfl,
    show e.to_json.lookup "references"
      = some (Json.arr (e.references.map Citation.to_json)) from rfl]
  simp only [except_ok_bind]
  rw [mapM_map_ok Citation.to_json
    (fun r => (Citation.from_json r).mapError ConstructError.schemaError)
    e.references (fun c _ => by
      show (Citation.from_json c.to_json).mapError ConstructError.schemaError
        = Except.ok c
      rw [citation_roundtrip c]
      rfl)]
  rfl

/-- Gene identifiers round-trip through their raw form when validation is
skipped. -/
theorem gene_id_roundtrip (g : GeneId) (ctx : Context) :
    GeneId.from_json g.to_json false ctx = .ok g := rfl

/-- A serialized non-canonical activity is always truthy: its object always
carries the `evidence` key. -/
theorem nca_to_json_truthy (nca : NonCanonicalActivity) :
    nca.to_json.truthy = true := by
  unfold NonCanonicalActivity.to_json Json.truthy
  simp

/-- The serialized non-canonical activity always exposes its evidence list
under the `evidence` key. -/
theorem nca_to_json_lookup_evidence (nca : NonCanonicalActivity) :
    nca.to_json.lookup "evidence"
      = some (.arr (nca.evidence.map NcaEvidence.to_json)) := by
  obtain ⟨ev, it, ne, sk⟩ := nca
  cases it <;> cases ne <;> cases sk <;> rfl

/-- Non-canonical activities round-trip through their raw form when validation
is skipped. -/
theorem nca_roundtrip (nca : NonCanonicalActivity) (ctx : Context) :
    NonCanonicalActivity.from_json nca.to_json false ctx = .ok nca := by
  have hev : (nca.evidence.map NcaEvidence.to_json).mapM
      (fun e => NcaEvidence.from_json e false) = .ok nca.evidence :=
    mapM_map_ok NcaEvidence.to_json (fun e => NcaEvidence.from_json e false)
      nca.evidence (fun e _ => nca_evidence_roundtrip e)
  unfold NonCanonicalActivity.from_json
  rw [nca_to_json_lookup_evidence nca]
  simp only [except_ok_bind, hev]
  obtain ⟨ev, it, ne, sk⟩ := nca
  cases it <;> cases ne <;> cases sk <;> rfl

/-- Monomers round-trip through their raw form; `Module.from_json` constructs
them with validation on, so this needs the monomer to be valid. -/
theorem monomer_roundtrip (mon : Monomer) (h : mon.validate = []) :
    Monomer.from_json mon.to_json true = .ok mon := by
  unfold Monomer.from_json
  rw [show mon.to_json.lookup "name" = some (Json.str mon.name) from rfl,
    show mon.to_json.lookup "references"
      = some (Json.arr (mon.references.map Citation.to_json)) from rfl]
  simp only [except_ok_bind]
  rw [mapM_map_ok Citation.to_json
    (fun r => (Citation.from_json r).mapError ConstructError.schemaError)
    mon.references (fun c _ => by
      show (Citation.from_json c.to_json).mapError ConstructError.schemaError
        = Except.ok c
      rw [citation_roundtrip c]
      rfl)]
  simp only [except_ok_bind]
  show (if mon.validate = [] then _ else _) = _
  rw [if_pos h]
  rfl

/-- Adding the optional monomer entry under a fresh key appends it. -/
theorem applyMonomers_eq_append (m : Module) (ret : List (String × Json))
    (h : ∀ p ∈ ret, p.1 ≠ "integrated_monomers") :
    applyMonomers m ret = ret ++ monOptFields m := by
  unfold applyMonomers monOptFields
  by_cases hie : m.integrated_monomers.isEmpty = true
  · simp [hie]
  · simp only [hie, if_false, Bool.false_eq_true]
    exact insertField_eq_append ret _ _ h

/-- Adding the optional non-canonical-activity entry under a fresh key appends
it. -/
theorem applyNca_eq_append (m : Module) (ret : List (String × Json))
    (h : ∀ p ∈ ret, p.1 ≠ "non_canonical_activity") :
    applyNca m ret = ret ++ ncaOptFields m := by
  unfold applyNca ncaOptFields
  rcases m.non_canonical_activity with _ | nca
  · simp
  · exact insertField_eq_append ret _ _ h

/-- Adding the optional comment entry under a fresh key appends it. -/
theorem applyComment_eq_append (m : Module) (ret : List (String × Json))
    (h : ∀ p ∈ ret, p.1 ≠ "comment") :
    applyComment m ret = ret ++ comOptFields m := by
  unfold applyComment comOptFields
  rcases m.comment with _ | c
  · simp
  · by_cases hc : c = ""
    · simp [hc]
    · simp only [hc, if_false]
      exact insertField_eq_append ret _ _ h

/-- Every key of the envelope literal is one of its four field names. -/
theorem moduleBaseFields_keys (m : Module) :
    ∀ q ∈ moduleBaseFields m,
      q.1 ∈ (["type", "name", "genes", "active"] : List String) := by
  intro q hq
  simp only [moduleBaseFields, List.mem_cons, List.not_mem_nil, or_false] at hq
  rcases hq with rfl | rfl | rfl | rfl <;> simp

/-- The optional monomer entry only ever carries its own key. -/
theorem monOptFields_keys (m : Module) :
    ∀ p ∈ monOptFields m, p.1 = "integrated_monomers" := by
  intro p hp
  unfold monOptFields at hp
  split at hp
  · simp at hp
  · rw [List.mem_singleton] at hp
    rw [hp]

/-- The optional non-canonical-activity entry only ever carries its own key. -/
theorem ncaOptFields_keys (m : Module) :
    ∀ p ∈ ncaOptFields m, p.1 = "non_canonical_activity" := by
  intro p hp
  unfold ncaOptFields at hp
  split at hp
  · rw [List.mem_singleton] at hp
    rw [hp]
  · simp at hp

/-- Under the flattening contract's well-formedness (payload keys pairwise
distinct and disjoint from the envelope keys), the serializer's dict
operations amount to plain concatenation of the five field groups. -/
theorem to_json_fields_decomp (m : Module)
    (hnd : (m.extra_info.fields.map Prod.fst).Nodup)
    (hdisj : ∀ k ∈ m.extra_info.fields.map Prod.fst, k ∉ envelopeKeys) :
    m.to_json_fields =
      moduleBaseFields m ++ m.extra_info.fields ++ monOptFields m
        ++ ncaOptFields m ++ comOptFields m := by
  have hfieldsK : ∀ p ∈ m.extra_info.fields, p.1 ∉ envelopeKeys := fun p hp =>
    hdisj p.1 (List.mem_map_of_mem Prod.fst hp)
  have hsub : ∀ x : String,
      x ∈ (["type", "name", "genes", "active"] : List String) → x ∈ envelopeKeys := by
    intro x hx
    simp only [List.mem_cons, List.not_mem_nil, or_false] at hx
    rcases hx with rfl | rfl | rfl | rfl <;> decide
  have h1 : mergeFields (moduleBaseFields m) m.extra_info.to_json
      = moduleBaseFields m ++ m.extra_info.fields :=
    mergeFields_eq_append m.extra_info.fields (moduleBaseFields m) hnd
      (fun p hp q hq hc =>
        hfieldsK p hp (hc ▸ hsub q.1 (moduleBaseFields_keys m q hq)))
  have hk1 : ∀ p ∈ moduleBaseFields m ++ m.extra_info.fields,
      p.1 ≠ "integrated_monomers" := by
    intro p hp hc
    rcases List.mem_append.mp hp with hp | hp
    · have := moduleBaseFields_keys m p hp
      rw [hc] at this
      exact absurd this (by decide)
    · exact hfieldsK p hp (by rw [hc]; decide)
  have hk2 : ∀ p ∈ moduleBaseFields m ++ m.extra_info.fields ++ monOptFields m,
      p.1 ≠ "non_canonical_activity" := by
    intro p hp hc
    rcases List.mem_append.mp hp with hp | hp
    · rcases List.mem_append.mp hp with hp | hp
      · have := moduleBaseFields_keys m p hp
        rw [hc] at this
        exact absurd this (by decide)
      · exact hfieldsK p hp (by rw [hc]; decide)
    · have := monOptFields_keys m p hp
      rw [hc] at this
      exact absurd this (by decide)
  have hk3 : ∀ p ∈ moduleBaseFields m ++ m.extra_info.fields ++ monOptFields m
      ++ ncaOptFields m, p.1 ≠ "comment" := by
    intro p hp hc
    rcases List.mem_append.mp hp with hp | hp
    · rcases List.mem_append.mp hp with hp | hp
      · rcases List.mem_append.mp hp with hp | hp
        · have := moduleBaseFields_keys m p hp
          rw [hc] at this
          exact absurd this (by decide)
        · exact hfieldsK p hp (by rw [hc]; decide)
      · have := monOptFields_keys m p hp
        rw [hc] at this
        exact absurd this (by decide)
    · have := ncaOptFields_keys m p hp
      rw [hc] at this
      exact absurd this (by decide)
  unfold Module.to_json_fields
  rw [h1, applyMonomers_eq_append m _ hk1, applyNca_eq_append m _ hk2,
    applyComment_eq_append m _ hk3]

/-- A key matching no binding looks up to nothing. -/
theorem lookupField_eq_none_of_not_mem (l : List (String × Json)) (k : String)
    (h : ∀ p ∈ l, p.1 ≠ k) :
    lookupField l k = none := by
  induction l with
  | nil => rfl
  | cons p rest ih =>
    rcases p with ⟨k', v⟩
    simp only [lookupField]
    rw [if_neg (h ⟨k', v⟩ (List.mem_cons_self _ rest))]
    exact ih (fun q hq => h q (List.mem_cons_of_mem _ hq))

/-- The optional comment entry only ever carries its own key. -/
theorem comOptFields_keys (m : Module) :
    ∀ p ∈ comOptFields m, p.1 = "comment" := by
  intro p hp
  unfold comOptFields at hp
  split at hp
  · split at hp
    · simp at hp
    · rw [List.mem_singleton] at hp
      rw [hp]
  · simp at hp

/-- The enum constructor resolves each tag's own string value back to the tag. -/
theorem fromString?_value (t : ModuleType) :
    ModuleType.fromString? t.value = some t := by
  cases t <;> rfl

/-- Deserializing `m.to_json` reconstructs `m.reparsed`, provided the payload
fields are well-formed and the monomers valid. -/
theorem module_from_json_to_json (m : Module) (ctx : Context)
    (hnd : (m.extra_info.fields.map Prod.fst).Nodup)
    (hdisj : ∀ k ∈ m.extra_info.fields.map Prod.fst, k ∉ envelopeKeys)
    (hmon : ∀ mon ∈ m.integrated_monomers, mon.validate = []) :
    Module.from_json m.to_json false ctx = .ok m.reparsed := by
  have hfieldsK : ∀ p ∈ m.extra_info.fields, p.1 ∉ envelopeKeys := fun p hp =>
    hdisj p.1 (List.mem_map_of_mem Prod.fst hp)
  have hF := to_json_fields_decomp m hnd hdisj
  -- the right-associated field list
  have hFr : m.to_json_fields =
      moduleBaseFields m ++ (m.extra_info.fields ++ (monOptFields m
        ++ (ncaOptFields m ++ comOptFields m))) := by
    rw [hF, List.append_assoc, List.append_assoc, List.append_assoc]
  have hbne : ∀ (k : String), k ∉ (["type", "name", "genes", "active"] : List String) →
      ∀ p ∈ moduleBaseFields m, p.1 ≠ k := by
    intro k hk p hp hc
    exact hk (hc ▸ moduleBaseFields_keys m p hp)
  have hfne : ∀ (k : String), k ∈ envelopeKeys →
      ∀ p ∈ m.extra_info.fields, p.1 ≠ k := by
    intro k hk p hp hc
    exact hfieldsK p hp (hc ▸ hk)
  have hty : m.to_json.lookup "type" = some (.str m.module_type.value) := by
    show lookupField m.to_json_fields "type" = _
    rw [hF]
    rfl
  have hname : m.to_json.lookup "name" = some (.str m.name) := by
    show lookupField m.to_json_fields "name" = _
    rw [hF]
    rfl
  have hgenes : m.to_json.lookup "genes" = some (.arr (m.genes.map GeneId.to_json)) := by
    show lookupField m.to_json_fields "genes" = _
    rw [hF]
    rfl
  have hactive : m.to_json.lookup "active" = some (.bool m.active) := by
    show lookupField m.to_json_fields "active" = _
    rw [hF]
    rfl
  have hextra : ModuleInfo.from_json m.to_json = .ok (ModuleInfo.mk m.extra_info.fields [] []) := by
    show ModuleInfo.from_json (.obj m.to_json_fields) = _
    unfold ModuleInfo.from_json
    rw [hF]
    simp only [List.filter_append]
    rw [show (moduleBaseFields m).filter (fun kv => decide (kv.1 ∉ envelopeKeys)) = [] from by
      simp [moduleBaseFields, envelopeKeys]]
    rw [List.filter_eq_self.mpr (fun kv hkv => decide_eq_true (hfieldsK kv hkv))]
    rw [show (monOptFields m).filter (fun kv => decide (kv.1 ∉ envelopeKeys)) = [] from by
      unfold monOptFields
      split
      · rfl
      · simp [envelopeKeys]]
    rw [show (ncaOptFields m).filter (fun kv => decide (kv.1 ∉ envelopeKeys)) = [] from by
      unfold ncaOptFields
      split
      · simp [envelopeKeys]
      · rfl]
    rw [show (comOptFields m).filter (fun kv => decide (kv.1 ∉ envelopeKeys)) = [] from by
      unfold comOptFields
      split
      · split
        · rfl
        · simp [envelopeKeys]
      · rfl]
    simp
  have hmono : m.to_json.lookup "integrated_monomers"
      = (if m.integrated_monomers.isEmpty then none
         else some (.arr (m.integrated_monomers.map Monomer.to_json))) := by
    show lookupField m.to_json_fields _ = _
    rw [hFr]
    rw [lookupField_append_of_not_mem _ _ _ (hbne _ (by decide))]
    rw [lookupField_append_of_not_mem _ _ _ (hfne _ (by decide))]
    unfold monOptFields
    split
    · rw [List.nil_append]
      exact lookupField_eq_none_of_not_mem _ _ (by
        intro p hp hc
        rcases List.mem_append.mp hp with hp | hp
        · have := ncaOptFields_keys m p hp
          rw [hc] at this
          exact absurd this (by decide)
        · have := comOptFields_keys m p hp
          rw [hc] at this
          exact absurd this (by decide))
    · rfl
  have hncal : m.to_json.lookup "non_canonical_activity"
      = (match m.non_canonical_activity with
         | some nca => some nca.to_json
         | none => none) := by
    show lookupField m.to_json_fields _ = _
    rw [hFr]
    rw [lookupField_append_of_not_mem _ _ _ (hbne _ (by decide))]
    rw [lookupField_append_of_not_mem _ _ _ (hfne _ (by decide))]
    rw [lookupField_append_of_not_mem _ _ _ (by
      intro p hp hc
      have := monOptFields_keys m p hp
      rw [hc] at this
      exact absurd this (by decide))]
    unfold ncaOptFields
    split
    · rfl
    · rw [List.nil_append]
      exact lookupField_eq_none_of_not_mem _ _ (by
        intro p hp hc
        have := comOptFields_keys m p hp
        rw [hc] at this
        exact absurd this (by decide))
  have hcoml : m.to_json.lookup "comment"
      = (match m.comment with
         | some c => if c = "" then none else some (.str c)
         | none => none) := by
    show lookupField m.to_json_fields _ = _
    rw [hFr]
    rw [lookupField_append_of_not_mem _ _ _ (hbne _ (by decide))]
    rw [lookupField_append_of_not_mem _ _ _ (hfne _ (by decide))]
    rw [lookupField_append_of_not_mem _ _ _ (by
      intro p hp hc
      have := monOptFields_keys m p hp
      rw [hc] at this
      exact absurd this (by decide))]
    rw [lookupField_append_of_not_mem _ _ _ (by
      intro p hp hc
      have := ncaOptFields_keys m p hp
      rw [hc] at this
      exact absurd this (by decide))]
    unfold comOptFields
    split
    · split
      · rfl
      · rfl
    · rfl
  have hgeneM : (m.genes.map GeneId.to_json).mapM
      (fun g => GeneId.from_json g false ctx) = .ok m.genes :=
    mapM_map_ok GeneId.to_json (fun g => GeneId.from_json g false ctx) m.genes
      (fun g _ => gene_id_roundtrip g ctx)
  have hmonM : (m.integrated_monomers.map Monomer.to_json).mapM
      (fun mm => Monomer.from_json mm true) = .ok m.integrated_monomers :=
    mapM_map_ok Monomer.to_json (fun mm => Monomer.from_json mm true)
      m.integrated_monomers (fun mon hmem => monomer_roundtrip mon (hmon mon hmem))
  unfold Module.from_json
  rw [hty]
  simp only [except_ok_bind]
  rw [fromString?_value]
  simp only [except_ok_bind]
  rw [hextra]
  simp only [except_ok_bind]
  rw [hncal, hname, hgenes, hactive, hcoml, hmono]
  rcases hnca : m.non_canonical_activity with _ | nca <;>
    rcases hcom : m.comment with _ | c <;>
      by_cases hie : m.integrated_monomers.isEmpty = true <;>
        (try by_cases hc : c = "")
  all_goals
    simp_all [Module.init, Module.reparsed, normOptStr, except_ok_bind,
      nca_to_json_truthy, nca_roundtrip, Except.map]
  
/-- Re-serializing the reconstructed module reproduces the original tree. -/
theorem reparsed_to_json_eq (m : Module)
    (hnd : (m.extra_info.fields.map Prod.fst).Nodup)
    (hdisj : ∀ k ∈ m.extra_info.fields.map Prod.fst, k ∉ envelopeKeys) :
    m.reparsed.to_json = m.to_json := by
  have hnd2 : (m.reparsed.extra_info.fields.map Prod.fst).Nodup := hnd
  have hdisj2 : ∀ k ∈ m.reparsed.extra_info.fields.map Prod.fst, k ∉ envelopeKeys := hdisj
  show Json.obj m.reparsed.to_json_fields = Json.obj m.to_json_fields
  rw [to_json_fields_decomp m hnd hdisj, to_json_fields_decomp m.reparsed hnd2 hdisj2]
  have hcom : comOptFields m.reparsed = comOptFields m := by
    unfold comOptFields Module.reparsed normOptStr
    rcases m.comment with _ | c
    · rfl
    · by_cases hc : c = "" <;> simp [hc]
  rw [hcom]
  rfl


/-- C1 corrected: the round trip `to_json ∘ from_json` is the identity on raw
trees that follow the omission convention — equivalently, on the serialized
image of any module whose payload keys are well-formed (pairwise distinct,
disjoint from the envelope keys) and whose monomers are individually valid.
Raw inputs carrying a present-but-empty optional (see the counterexample) lose
that key instead. -/
theorem claim_C1_roundtrip (m : Module) (ctx : Context)
    (hnd : (m.extra_info.fields.map Prod.fst).Nodup)
    (hdisj : ∀ k ∈ m.extra_info.fields.map Prod.fst, k ∉ envelopeKeys)
    (hmon : ∀ mon ∈ m.integrated_monomers, mon.validate = []) :
    Module.from_json m.to_json false ctx = .ok m.reparsed
    ∧ m.reparsed.to_json = m.to_json :=
  ⟨module_from_json_to_json m ctx hnd hdisj hmon, reparsed_to_json_eq m hnd hdisj⟩

/-- C1 witness: a module exercising payload fields, a monomer, a non-canonical
activity and a comment round-trips exactly. -/
theorem claim_C1_roundtrip_witness :
    ((modC1.extra_info.fields.map Prod.fst).Nodup
     ∧ (∀ k ∈ modC1.extra_info.fields.map Prod.fst, k ∉ envelopeKeys)
     ∧ (∀ mon ∈ modC1.integrated_monomers, mon.validate = []))
    ∧ (Module.from_json modC1.to_json false ⟨some .full, none⟩ = .ok modC1.reparsed
       ∧ modC1.reparsed.to_json = modC1.to_json) :=
  ⟨⟨by decide, by decide, by decide⟩,
   claim_C1_roundtrip modC1 ⟨some .full, none⟩ (by decide) (by decide) (by decide)⟩

/-- C1 counterexample: a well-formed raw input (construction and validation
both succeed) whose `integrated_monomers` key is present but empty is NOT
returned field-for-field identical — the serializer omits the key entirely. -/
theorem claim_C1_counterexample :
    Module.from_json rawC1 true ⟨some .full, none⟩
      = .ok ⟨.other, "mod1", [], true, ⟨[], [], []⟩, [], none, none⟩
    ∧ rawC1.lookup "integrated_monomers" = some (.arr [])
    ∧ (Module.to_json ⟨.other, "mod1", [], true, ⟨[], [], []⟩, [], none, none⟩).lookup
        "integrated_monomers" = none :=
  ⟨rfl, rfl, rfl⟩

end Mibig
